import Mathlib

/-!
Verification development for the live-update core of the sliding-sync
gateway: the range arithmetic of `synclive/range.go` (`SliceRanges`) and the
event `Dispatcher` of package `sync3`.

Definitions are a shallow embedding translated from the Go source. The
components the dispatcher uses that live outside the provided source
(`JoinedRoomsTracker`, `caches.EventData` / `caches.NewEventData`,
`internal.Receipt`) are modelled from the specification; each such
definition carries a doc comment starting with `Modelled from the spec:`.

Go machine integers (`int64`) are modelled as `Int`; none of the verified
operations can overflow on the inputs considered. Go maps keyed by values
are modelled by duplicate-free lists (`List.dedup`) since only the key set
is observable; Go map iteration order is unspecified and nothing proved
here depends on list order where a map was the source.
-/

namespace SlidingSync

/-! ## RangeSet (translated from src/synclive/range.go) -/

/-- Go: `type SliceRanges [][2]int64`. One range is an inclusive
`[start, end]` pair of index positions. -/
abbrev SliceRange := Int × Int

/-- Go: `SliceRanges.Delta` (range.go lines 19-43). Both inputs are loaded
into Go maps keyed by the pair, so each collection collapses to its set of
distinct pairs; we model the key set by `List.dedup`. Returns
`(added, removed, same)`. -/
def delta (r next : List SliceRange) : List SliceRange × List SliceRange × List SliceRange :=
  let olds := r.dedup
  let news := next.dedup
  let same := olds.filter (fun p => decide (p ∈ news))
  let removed := olds.filter (fun p => decide (p ∉ news))
  let added := news.filter (fun p => decide (p ∉ olds))
  (added, removed, same)

/-- Go: the range cap applied by `SliceRanges.SliceInto` (range.go lines
52-58): each bound that is `≥ sliceLen` is replaced by `sliceLen - 1`. -/
def clampRange (sliceLen : Int) (sr : SliceRange) : SliceRange :=
  ((if sliceLen ≤ sr.1 then sliceLen - 1 else sr.1),
   (if sliceLen ≤ sr.2 then sliceLen - 1 else sr.2))

/-- Go: `Subslicer.Subslice(i, j)` for a concrete list-backed sequence, the
closed-open extraction `s[i:j]`. Negative indices are taken to 0 by
`Int.toNat` (a Go slice would panic there; `SliceInto` only produces a
negative index for an empty sequence, the case settled in claim C2). -/
def subslice (l : List α) (i j : Int) : List α :=
  (l.take j.toNat).drop i.toNat

/-- Go: `SliceRanges.SliceInto` (range.go lines 46-63): for each range in
input order, cap the bounds against the sequence length and extract the
closed-open slice `[start, end+1)`. -/
def sliceInto (r : List SliceRange) (slice : List α) : List (List α) :=
  r.map (fun sr =>
    let c := clampRange slice.length sr
    subslice slice c.1 (c.2 + 1))

/-! ## Membership tracker (modelled from the spec) -/

/-- Modelled from the spec: the `JoinedRoomsTracker` membership index
(spec section 4.1), whose implementation is not part of the provided
source (only its callers are). Per room it stores the duplicate-free set
of joined users and of invited users. -/
structure JoinedRoomsTracker where
  joined : String → List String
  invited : String → List String

/-- Tracker with no memberships at all. -/
def emptyTracker : JoinedRoomsTracker := ⟨fun _ => [], fun _ => []⟩

/-- Insert a user into a duplicate-free user list (no-op when present). -/
def insertUser (u : String) (l : List String) : List String :=
  if u ∈ l then l else l ++ [u]

/-- Modelled from the spec: `UserJoinedRoom(user, room)` transitions the
pair to `Joined` and returns true exactly when the user was not already
joined (the force-initial signal). -/
def JoinedRoomsTracker.userJoinedRoom (t : JoinedRoomsTracker) (user room : String) :
    JoinedRoomsTracker × Bool :=
  (⟨fun r => if r = room then insertUser user (t.joined r) else t.joined r,
    fun r => if r = room then (t.invited r).erase user else t.invited r⟩,
   !decide (user ∈ t.joined room))

/-- Modelled from the spec: `UserLeftRoom(user, room)` transitions to
`Left`/`NotMember`, removing the user from the joined and invited sets;
idempotent. -/
def JoinedRoomsTracker.userLeftRoom (t : JoinedRoomsTracker) (user room : String) :
    JoinedRoomsTracker :=
  ⟨fun r => if r = room then (t.joined r).erase user else t.joined r,
   fun r => if r = room then (t.invited r).erase user else t.invited r⟩

/-- Modelled from the spec: `UsersJoinedRoom(users, room)` bulk join;
returns whether any of the users is newly joined. -/
def JoinedRoomsTracker.usersJoinedRoom (t : JoinedRoomsTracker) (users : List String)
    (room : String) : JoinedRoomsTracker × Bool :=
  match users with
  | [] => (t, false)
  | u :: rest =>
    let r := t.userJoinedRoom u room
    let tl := r.1.usersJoinedRoom rest room
    (tl.1, r.2 || tl.2)

/-- Modelled from the spec: `UsersInvitedToRoom(users, room)` records each
user as invited to the room. -/
def JoinedRoomsTracker.usersInvitedToRoom (t : JoinedRoomsTracker) (users : List String)
    (room : String) : JoinedRoomsTracker :=
  match users with
  | [] => t
  | u :: rest =>
    let t1 : JoinedRoomsTracker :=
      { t with invited := fun r => if r = room then insertUser u (t.invited r) else t.invited r }
    t1.usersInvitedToRoom rest room

/-- Modelled from the spec: `NumInvitedUsersForRoom(room)`. -/
def JoinedRoomsTracker.numInvitedUsersForRoom (t : JoinedRoomsTracker) (room : String) : Nat :=
  (t.invited room).length

/-- Modelled from the spec: `JoinedUsersForRoom(room, filter)` returns the
joined users accepted by the filter together with the full joined count. -/
def JoinedRoomsTracker.joinedUsersForRoom (t : JoinedRoomsTracker) (room : String)
    (f : String → Bool) : List String × Nat :=
  ((t.joined room).filter f, (t.joined room).length)

/-- Modelled from the spec: `ReloadMembershipsForRoom(room, joined, invited)`
atomically replaces all membership for the room with the given sets. -/
def JoinedRoomsTracker.reloadMembershipsForRoom (t : JoinedRoomsTracker) (room : String)
    (joinedUsers invitedUsers : List String) : JoinedRoomsTracker :=
  ⟨fun r => if r = room then joinedUsers.dedup else t.joined r,
   fun r => if r = room then invitedUsers.dedup else t.invited r⟩

/-! ## Event data and receivers -/

/-- Modelled from the spec: the parsed view of a raw `json.RawMessage`
event that `caches.NewEventData` extracts — event type, optional state
key, and the `membership` content field (empty string when absent). -/
structure RawEvent where
  eventType : String
  stateKey : Option String
  membership : String
deriving DecidableEq

/-- Modelled from the spec: `caches.EventData`, one instance per
dispatched event (spec section 3). -/
structure EventData where
  roomID : String
  eventType : String
  stateKey : Option String
  membership : String
  nid : Int
  joinCount : Nat
  inviteCount : Nat
  forceInitial : Bool
deriving DecidableEq

/-- Modelled from the spec: `caches.NewEventData(event, roomID, nid)` —
counts start at zero and `ForceInitial` starts false. -/
def newEventData (event : RawEvent) (roomID : String) (nid : Int) : EventData :=
  { roomID := roomID, eventType := event.eventType, stateKey := event.stateKey,
    membership := event.membership, nid := nid,
    joinCount := 0, inviteCount := 0, forceInitial := false }

/-- Modelled from the spec: `internal.Receipt` carries at least a room
identifier. -/
structure Receipt where
  roomID : String
deriving DecidableEq

/-- Concrete Go type behind a registered `Receiver` interface value, used
by the type assertions in `OnInvalidateRoom`. -/
inductive ReceiverClass where
  | globalCache
  | userCache
  | other
deriving DecidableEq

/-- A registered receiver: its concrete class, whether the interface wraps
a nil pointer, the result its `OnRegistered` hook returns, and an identity
tag. The callback behavior itself is recorded in traces, not here. -/
structure Receiver where
  cls : ReceiverClass
  ptrNil : Bool
  onRegisteredErr : Option String
  rid : Nat
deriving DecidableEq

/-- Go: `const DispatcherAllUsers = "-"`, the reserved global sentinel. -/
def DispatcherAllUsers : String := "-"

/-- Go: the `Dispatcher` struct — the joined-rooms tracker plus the
user-to-receiver registry (`map[string]Receiver`, absent key = nil). -/
structure Dispatcher where
  jrt : JoinedRoomsTracker
  userToReceiver : String → Option Receiver

/-- One receiver invocation, as recorded in a dispatch trace. -/
inductive Call where
  | newEvent (userID : String) (data : EventData)
  | ephemeralEvent (userID roomID payload : String)
  | receipt (userID : String) (rc : Receipt)
  | invalidateRoom (roomID : String)
  | leftRoom (userID roomID : String)
  | inviteState (userID roomID : String)
deriving DecidableEq

/-- The registry slot a recorded call was delivered to. -/
def Call.user : Call → String
  | .newEvent u _ => u
  | .ephemeralEvent u _ _ => u
  | .receipt u _ => u
  | .invalidateRoom _ => DispatcherAllUsers
  | .leftRoom u _ => u
  | .inviteState u _ => u

/-- Number of calls in a trace delivered to the global sentinel slot. -/
def globalCallCount (t : List Call) : Nat :=
  t.countP (fun c => decide (c.user = DispatcherAllUsers))

/-! ## Dispatcher operations (translated from src/unnamed/part_000) -/

/-- Go: the audience filter closure passed to `JoinedUsersForRoom` by all
four dispatch paths (part_000 lines 114-119, 158-163, 169-174, 196-201):
reject the global sentinel, then require a registered receiver. -/
def audienceFilter (d : Dispatcher) (userID : String) : Bool :=
  if userID = DispatcherAllUsers then false
  else (d.userToReceiver userID).isSome

/-- Go: the per-recipient copy `edd := *ed` made in `notifyListeners`,
with `ForceInitial` raised only when this recipient is the membership
target and the change forces a bootstrap. -/
def copyForUser (ed : EventData) (targetUser userID : String) (shouldForceInitial : Bool) :
    EventData :=
  if targetUser = userID then
    (if shouldForceInitial then { ed with forceInitial := true } else ed)
  else ed

/-- Go: the global-listener block of `notifyListeners` (part_000 lines
228-232): one `OnNewEvent` call with the unmodified data when the global
sentinel slot is registered. -/
def globalNewEventCalls (d : Dispatcher) (ed : EventData) : List Call :=
  match d.userToReceiver DispatcherAllUsers with
  | some _ => [Call.newEvent DispatcherAllUsers ed]
  | none => []

/-- Go: the per-user loop of `notifyListeners` (part_000 lines 234-248):
one call per audience member with a registered receiver, each with its
per-recipient copy. -/
def perUserNewEventCalls (d : Dispatcher) (ed : EventData) (userIDs : List String)
    (targetUser : String) (shouldForceInitial : Bool) : List Call :=
  userIDs.filterMap (fun userID =>
    match d.userToReceiver userID with
    | none => none
    | some _ => some (Call.newEvent userID (copyForUser ed targetUser userID shouldForceInitial)))

/-- Go: the `notifiedTarget` flag of `notifyListeners`: set when the loop
visited the target user and found a registered receiver for them. -/
def notifiedTarget (d : Dispatcher) (userIDs : List String) (targetUser : String) : Bool :=
  userIDs.any (fun userID => (d.userToReceiver userID).isSome && decide (userID = targetUser))

/-- Go: the membership-target fallback of `notifyListeners` (part_000
lines 249-263): when the event names a target user who was not notified
by the loop, deliver to that user directly — unless the membership value
is exactly "invite". -/
def fallbackCalls (d : Dispatcher) (ed : EventData) (targetUser : String)
    (shouldForceInitial : Bool) (membership : String) (notified : Bool) : List Call :=
  if targetUser ≠ "" ∧ notified = false then
    if membership ≠ "invite" then
      match d.userToReceiver targetUser with
      | none => []
      | some _ => [Call.newEvent targetUser
          (if shouldForceInitial then { ed with forceInitial := true } else ed)]
    else []
  else []

/-- Go: `Dispatcher.notifyListeners` (part_000 lines 222-264). Returns the
receiver invocations in order: the global receiver first if registered,
then one per-recipient copy per registered audience member, then the
membership-target fallback. -/
def notifyListeners (d : Dispatcher) (ed : EventData) (userIDs : List String)
    (targetUser : String) (shouldForceInitial : Bool) (membership : String) : List Call :=
  globalNewEventCalls d ed ++
  perUserNewEventCalls d ed userIDs targetUser shouldForceInitial ++
  fallbackCalls d ed targetUser shouldForceInitial membership
    (notifiedTarget d userIDs targetUser)

/-- Go: the `targetUser` and `membership` locals of `OnNewEvent` (part_000
lines 135-141): set only for a membership state event. -/
def memberFields (e : RawEvent) : String × String :=
  match e.stateKey with
  | some sk => if e.eventType = "m.room.member" then (sk, e.membership) else ("", "")
  | none => ("", "")

/-- Go: the tracker update switch of `OnNewEvent` (part_000 lines 138-153).
Returns the updated tracker and the `shouldForceInitial` flag. -/
def trackerUpdate (t : JoinedRoomsTracker) (roomID : String) (e : RawEvent) :
    JoinedRoomsTracker × Bool :=
  match e.stateKey with
  | some sk =>
    if e.eventType = "m.room.member" then
      if e.membership = "invite" then (t.usersInvitedToRoom [sk] roomID, false)
      else if e.membership = "join" then t.userJoinedRoom sk roomID
      else if e.membership = "ban" ∨ e.membership = "leave" then (t.userLeftRoom sk roomID, false)
      else (t, false)
    else (t, false)
  | none => (t, false)

/-- Go: the `EventData` value as dispatched by `OnNewEvent` after the
tracker update — invite count attached for membership state events
(part_000 line 154), join count attached for every event (line 164). -/
def eventDataFor (d : Dispatcher) (roomID : String) (event : RawEvent) (nid : Int) :
    EventData :=
  let ed0 := newEventData event roomID nid
  let jrt1 := (trackerUpdate d.jrt roomID event).1
  let ed1 :=
    if event.eventType = "m.room.member" ∧ event.stateKey.isSome then
      { ed0 with inviteCount := jrt1.numInvitedUsersForRoom roomID }
    else ed0
  { ed1 with joinCount := (jrt1.joinedUsersForRoom roomID (audienceFilter d)).2 }

/-- Go: `Dispatcher.OnNewEvent` (part_000 lines 129-166). Returns the
updated dispatcher and the ordered invocation trace. -/
def onNewEvent (d : Dispatcher) (roomID : String) (event : RawEvent) (nid : Int) :
    Dispatcher × List Call :=
  let jrt1 := (trackerUpdate d.jrt roomID event).1
  let d1 : Dispatcher := { d with jrt := jrt1 }
  (d1, notifyListeners d1 (eventDataFor d roomID event nid)
    (jrt1.joinedUsersForRoom roomID (audienceFilter d)).1
    (memberFields event).1 (trackerUpdate d.jrt roomID event).2 (memberFields event).2)

/-- Go: the degraded branch of `OnNewInitialRoomState` (part_000 lines
87-90): replay each state event through the incremental path, in order. -/
def replayEvents (d : Dispatcher) (roomID : String) : List RawEvent → Dispatcher × List Call
  | [] => (d, [])
  | e :: rest =>
    let r := onNewEvent d roomID e 0
    let tl := replayEvents r.1 roomID rest
    (tl.1, r.2 ++ tl.2)

/-- Go: the joined users collected from membership state events in
`OnNewInitialRoomState` (part_000 lines 95-107), in state order. -/
def joinedOfState (state : List RawEvent) : List String :=
  state.filterMap (fun e =>
    match e.stateKey with
    | some sk =>
      if e.eventType = "m.room.member" ∧ e.membership = "join" then some sk else none
    | none => none)

/-- Go: the invited users collected from membership state events in
`OnNewInitialRoomState` (part_000 lines 95-107), in state order. -/
def invitedOfState (state : List RawEvent) : List String :=
  state.filterMap (fun e =>
    match e.stateKey with
    | some sk =>
      if e.eventType = "m.room.member" ∧ e.membership = "invite" then some sk else none
    | none => none)

/-- Go: the tracker state after the bulk updates of
`OnNewInitialRoomState` (part_000 lines 109-110): `UsersJoinedRoom` with
the collected joined users, then `UsersInvitedToRoom` with the collected
invited users. -/
def bulkTracker (d : Dispatcher) (roomID : String) (state : List RawEvent) :
    JoinedRoomsTracker :=
  ((d.jrt.usersJoinedRoom (joinedOfState state) roomID).1).usersInvitedToRoom
    (invitedOfState state) roomID

/-- Go: one `EventData` of the bulk path of `OnNewInitialRoomState`, with
the room invite and join counts attached (part_000 lines 122-124). -/
def bulkEventData (d : Dispatcher) (roomID : String) (state : List RawEvent)
    (e : RawEvent) : EventData :=
  let ed := newEventData e roomID 0
  { ed with
    inviteCount := (bulkTracker d roomID state).numInvitedUsersForRoom roomID,
    joinCount := ((bulkTracker d roomID state).joinedUsersForRoom roomID
      (audienceFilter d)).2 }

/-- Go: `Dispatcher.OnNewInitialRoomState` (part_000 lines 81-127). The
Bool in the result is true when the sanity check fired (the room already
had joined users) and the call degraded to the incremental path after
logging a diagnostic. -/
def onNewInitialRoomState (d : Dispatcher) (roomID : String) (state : List RawEvent) :
    Dispatcher × List Call × Bool :=
  let jc := (d.jrt.joinedUsersForRoom roomID (fun _ => true)).2
  if 0 < jc then
    let res := replayEvents d roomID state
    (res.1, res.2, true)
  else
    let jrt2 := bulkTracker d roomID state
    let forceInitial := (d.jrt.usersJoinedRoom (joinedOfState state) roomID).2
    let d1 : Dispatcher := { d with jrt := jrt2 }
    let aud := jrt2.joinedUsersForRoom roomID (audienceFilter d)
    let calls := (state.map (fun e =>
      notifyListeners d1 (bulkEventData d roomID state e) aud.1 "" forceInitial "")).flatten
    (d1, calls, false)

/-- Go: `Dispatcher.OnEphemeralEvent` (part_000 lines 168-193): no
membership mutation; global receiver first, then the filtered joined
audience. The opaque payload is threaded through unchanged. -/
def onEphemeralEvent (d : Dispatcher) (roomID : String) (payload : String) :
    Dispatcher × List Call :=
  let notifyUserIDs := (d.jrt.joinedUsersForRoom roomID (audienceFilter d)).1
  let globalCalls : List Call :=
    match d.userToReceiver DispatcherAllUsers with
    | some _ => [Call.ephemeralEvent DispatcherAllUsers roomID payload]
    | none => []
  let userCalls : List Call := notifyUserIDs.filterMap (fun userID =>
    match d.userToReceiver userID with
    | none => none
    | some _ => some (Call.ephemeralEvent userID roomID payload))
  (d, globalCalls ++ userCalls)

/-- Go: `Dispatcher.OnReceipt` (part_000 lines 195-220): no membership
mutation; global receiver first, then the filtered joined audience. -/
def onReceipt (d : Dispatcher) (receipt : Receipt) : Dispatcher × List Call :=
  let notifyUserIDs := (d.jrt.joinedUsersForRoom receipt.roomID (audienceFilter d)).1
  let globalCalls : List Call :=
    match d.userToReceiver DispatcherAllUsers with
    | some _ => [Call.receipt DispatcherAllUsers receipt]
    | none => []
  let userCalls : List Call := notifyUserIDs.filterMap (fun userID =>
    match d.userToReceiver userID with
    | none => none
    | some _ => some (Call.receipt userID receipt))
  (d, globalCalls ++ userCalls)

/-- Go: `Dispatcher.Register` (part_000 lines 63-71). Returns the updated
dispatcher, the value returned by the `OnRegistered` hook, and whether the
already-registered warning was logged. The receiver is installed before
the hook runs and is not rolled back on hook failure. -/
def register (d : Dispatcher) (userID : String) (r : Receiver) :
    Dispatcher × Option String × Bool :=
  let warned := (d.userToReceiver userID).isSome
  let d1 : Dispatcher :=
    { d with userToReceiver := fun u => if u = userID then some r else d.userToReceiver u }
  (d1, r.onRegisteredErr, warned)

/-- Go runtime panic, as produced by a failed single-value interface type
assertion. -/
inductive GoPanic where
  | interfaceConversion
deriving DecidableEq

/-- Go: the single-value type assertion `receiver.(*caches.GlobalCache)`
(part_000 line 278): a nil interface, or one holding a different concrete
type, makes the program panic. -/
def typeAssertGlobalCache : Option Receiver → Except GoPanic Receiver
  | none => .error .interfaceConversion
  | some r =>
    if r.cls = ReceiverClass.globalCache then .ok r else .error .interfaceConversion

/-- Go: the single-value type assertion `receiver.(*caches.UserCache)`
(part_000 lines 325 and 336). -/
def typeAssertUserCache : Option Receiver → Except GoPanic Receiver
  | none => .error .interfaceConversion
  | some r =>
    if r.cls = ReceiverClass.userCache then .ok r else .error .interfaceConversion

/-- Go: the leave/invite loops of `OnInvalidateRoom` (part_000 lines
320-340): skip unregistered users, type-assert the rest to `*UserCache`
(panicking on a different class) and invoke the callback unless the
asserted pointer is nil. On a panic the calls already made are unwound
with the stack and are not reported. -/
def userCacheCalls (d : Dispatcher) (users : List String) (mk : String → Call) :
    Except GoPanic (List Call) :=
  match users with
  | [] => .ok []
  | u :: rest =>
    match d.userToReceiver u with
    | none => userCacheCalls d rest mk
    | some r =>
      match typeAssertUserCache (some r) with
      | .error e => .error e
      | .ok uc =>
        match userCacheCalls d rest mk with
        | .error e => .error e
        | .ok tl => .ok ((if uc.ptrNil then [] else [mk u]) ++ tl)

/-- Go: the join loop of `OnInvalidateRoom` (part_000 lines 342-350):
deliver each join event data to the registered receiver of its user. -/
def joinCalls (d : Dispatcher) (joins : List (String × EventData)) : List Call :=
  joins.filterMap (fun p =>
    match d.userToReceiver p.1 with
    | none => none
    | some _ => some (Call.newEvent p.1 p.2))

/-- Go: `Dispatcher.OnInvalidateRoom` (part_000 lines 266-351). The Go
maps are modelled as lists of their (distinct) keys, with the join map
carrying its event-data values. The Bool in an ok result is true when the
missing-global-cache branch logged its error and returned early — which
the source can only reach for a non-nil interface wrapping a nil
`*GlobalCache` pointer, because the type assertion on line 278 panics on
a nil interface before the check. -/
def onInvalidateRoom (d : Dispatcher) (roomID : String) (joins : List (String × EventData))
    (invites : List String) (leaves : List String) :
    Except GoPanic (Dispatcher × List Call × Bool) :=
  match typeAssertGlobalCache (d.userToReceiver DispatcherAllUsers) with
  | .error e => .error e
  | .ok gc =>
    if gc.ptrNil then .ok (d, [], true)
    else
      let jrt1 := d.jrt.reloadMembershipsForRoom roomID (joins.map (fun p => p.1)) invites
      let d1 : Dispatcher := { d with jrt := jrt1 }
      match userCacheCalls d leaves (fun u => Call.leftRoom u roomID) with
      | .error e => .error e
      | .ok lc =>
        match userCacheCalls d invites (fun u => Call.inviteState u roomID) with
        | .error e => .error e
        | .ok ic =>
          .ok (d1, Call.invalidateRoom roomID :: (lc ++ ic ++ joinCalls d joins), false)

/-! ## Witness fixtures -/

/-- A registered global cache receiver for concrete scenarios. -/
def gRecv : Receiver := ⟨ReceiverClass.globalCache, false, none, 0⟩

/-- A registered per-user cache receiver for concrete scenarios. -/
def uRecv : Receiver := ⟨ReceiverClass.userCache, false, none, 1⟩

/-- A per-user receiver whose registration hook fails. -/
def failRecv : Receiver := ⟨ReceiverClass.userCache, false, some "hook failed", 2⟩

/-- Dispatcher with an empty tracker and nothing registered. -/
def dEmpty : Dispatcher := ⟨emptyTracker, fun _ => none⟩

/-- Dispatcher with only the global sentinel registered. -/
def dGlobalOnly : Dispatcher :=
  ⟨emptyTracker, fun u => if u = DispatcherAllUsers then some gRecv else none⟩

/-- Dispatcher with the global sentinel and the user `@u:s` registered. -/
def dGlobalAndUser : Dispatcher :=
  ⟨emptyTracker, fun u =>
    if u = DispatcherAllUsers then some gRecv
    else if u = "@u:s" then some uRecv
    else none⟩

/-- Dispatcher with one user already joined to room `!r` and nobody
registered. -/
def dJoinedOne : Dispatcher :=
  ⟨⟨fun r => if r = "!r" then ["@a:s"] else [], fun _ => []⟩, fun _ => none⟩

/-! ## Helper lemmas -/

lemma mem_insertUser {v u : String} {l : List String} :
    v ∈ insertUser u l ↔ v ∈ l ∨ v = u := by
  unfold insertUser
  split
  · rename_i h
    exact ⟨Or.inl, fun hv => hv.elim id (fun hvu => hvu ▸ h)⟩
  · simp [List.mem_append]

lemma audienceFilter_isSome {d : Dispatcher} {u : String}
    (h : audienceFilter d u = true) : (d.userToReceiver u).isSome = true := by
  unfold audienceFilter at h
  split at h
  · cases h
  · exact h

lemma audienceFilter_ne_sentinel {d : Dispatcher} {u : String}
    (h : audienceFilter d u = true) : u ≠ DispatcherAllUsers := by
  unfold audienceFilter at h
  split at h
  · cases h
  · assumption

lemma audienceFilter_true {d : Dispatcher} {u : String} (hne : u ≠ DispatcherAllUsers)
    (hs : (d.userToReceiver u).isSome = true) : audienceFilter d u = true := by
  unfold audienceFilter
  rw [if_neg hne]
  exact hs

lemma copyForUser_false (ed : EventData) (tu u : String) :
    copyForUser ed tu u false = ed := by
  unfold copyForUser
  split <;> rfl

lemma copyForUser_fields (ed : EventData) (tu u : String) (sfi : Bool) :
    (copyForUser ed tu u sfi).inviteCount = ed.inviteCount ∧
    (copyForUser ed tu u sfi).joinCount = ed.joinCount := by
  unfold copyForUser
  split
  · split <;> exact ⟨rfl, rfl⟩
  · exact ⟨rfl, rfl⟩

lemma copyForUser_forceInitial {ed : EventData} {tu u : String} {sfi : Bool}
    (h : (copyForUser ed tu u sfi).forceInitial = true) :
    ed.forceInitial = true ∨ (tu = u ∧ sfi = true) := by
  unfold copyForUser at h
  split at h
  · rename_i htu
    split at h
    · rename_i hsfi
      exact Or.inr ⟨htu, hsfi⟩
    · exact Or.inl h
  · exact Or.inl h

lemma copyForUser_of_target (ed : EventData) (u : String) :
    copyForUser ed u u true = { ed with forceInitial := true } := by
  unfold copyForUser
  rw [if_pos rfl]
  rfl

lemma mem_globalNewEventCalls {d : Dispatcher} {ed : EventData} {c : Call} :
    c ∈ globalNewEventCalls d ed ↔
      (d.userToReceiver DispatcherAllUsers).isSome = true ∧
        c = Call.newEvent DispatcherAllUsers ed := by
  unfold globalNewEventCalls
  cases h : d.userToReceiver DispatcherAllUsers <;> simp

lemma mem_perUserNewEventCalls {d : Dispatcher} {ed : EventData} {uids : List String}
    {tu : String} {sfi : Bool} {c : Call} :
    c ∈ perUserNewEventCalls d ed uids tu sfi ↔
      ∃ u, u ∈ uids ∧ (d.userToReceiver u).isSome = true ∧
        c = Call.newEvent u (copyForUser ed tu u sfi) := by
  unfold perUserNewEventCalls
  rw [List.mem_filterMap]
  constructor
  · rintro ⟨u, hu, hm⟩
    cases h : d.userToReceiver u with
    | none => rw [h] at hm; cases hm
    | some r =>
      rw [h] at hm
      exact ⟨u, hu, by rw [h]; rfl, (Option.some.inj hm).symm⟩
  · rintro ⟨u, hu, hs, rfl⟩
    refine ⟨u, hu, ?_⟩
    cases h : d.userToReceiver u with
    | none => rw [h] at hs; cases hs
    | some r => rfl

lemma mem_fallbackCalls {d : Dispatcher} {ed : EventData} {tu : String} {sfi : Bool}
    {mem : String} {nt : Bool} {c : Call} :
    c ∈ fallbackCalls d ed tu sfi mem nt ↔
      tu ≠ "" ∧ nt = false ∧ mem ≠ "invite" ∧ (d.userToReceiver tu).isSome = true ∧
        c = Call.newEvent tu (if sfi then { ed with forceInitial := true } else ed) := by
  unfold fallbackCalls
  split
  · rename_i hcond
    split
    · rename_i hmem
      cases h : d.userToReceiver tu <;> simp [h, hcond.1, hcond.2, hmem]
    · rename_i hmem
      rw [not_not] at hmem
      simp [hmem]
  · rename_i hcond
    rw [not_and] at hcond
    simp only [List.not_mem_nil, false_iff]
    rintro ⟨h1, h2, _⟩
    exact absurd h2 (hcond h1)

lemma mem_notifyListeners {d : Dispatcher} {ed : EventData} {uids : List String}
    {tu : String} {sfi : Bool} {mem : String} {c : Call} :
    c ∈ notifyListeners d ed uids tu sfi mem ↔
      c ∈ globalNewEventCalls d ed ∨
      c ∈ perUserNewEventCalls d ed uids tu sfi ∨
      c ∈ fallbackCalls d ed tu sfi mem (notifiedTarget d uids tu) := by
  unfold notifyListeners
  simp [List.mem_append, or_assoc]

lemma globalNewEventCalls_of_some {d : Dispatcher} {ed : EventData} {g : Receiver}
    (h : d.userToReceiver DispatcherAllUsers = some g) :
    globalNewEventCalls d ed = [Call.newEvent DispatcherAllUsers ed] := by
  unfold globalNewEventCalls
  rw [h]

lemma notifyListeners_cons {d : Dispatcher} {ed : EventData} {uids : List String}
    {tu : String} {sfi : Bool} {mem : String} {g : Receiver}
    (h : d.userToReceiver DispatcherAllUsers = some g) :
    notifyListeners d ed uids tu sfi mem
      = Call.newEvent DispatcherAllUsers ed ::
        (perUserNewEventCalls d ed uids tu sfi ++
         fallbackCalls d ed tu sfi mem (notifiedTarget d uids tu)) := by
  unfold notifyListeners
  rw [globalNewEventCalls_of_some h]
  rfl

lemma filterMap_lookup_eq_map (d : Dispatcher) (f : String → Call) :
    ∀ (l : List String), (∀ u ∈ l, (d.userToReceiver u).isSome = true) →
      (l.filterMap (fun u =>
        match d.userToReceiver u with
        | none => none
        | some _ => some (f u))) = l.map f := by
  intro l
  induction l with
  | nil => intro _; rfl
  | cons a tl ih =>
    intro h
    have ha := h a (List.mem_cons_self a tl)
    cases hx : d.userToReceiver a with
    | none => rw [hx] at ha; cases ha
    | some r =>
      simp only [List.filterMap_cons, hx, List.map_cons]
      rw [ih (fun u hu => h u (List.mem_cons_of_mem a hu))]

lemma onNewEvent_userToReceiver (d : Dispatcher) (roomID : String) (e : RawEvent)
    (nid : Int) : (onNewEvent d roomID e nid).1.userToReceiver = d.userToReceiver := rfl

lemma onNewEvent_jrt (d : Dispatcher) (roomID : String) (e : RawEvent) (nid : Int) :
    (onNewEvent d roomID e nid).1.jrt = (trackerUpdate d.jrt roomID e).1 := rfl

lemma onNewEvent_trace (d : Dispatcher) (roomID : String) (e : RawEvent) (nid : Int) :
    (onNewEvent d roomID e nid).2
      = notifyListeners { d with jrt := (trackerUpdate d.jrt roomID e).1 }
          (eventDataFor d roomID e nid)
          (((trackerUpdate d.jrt roomID e).1.joined roomID).filter (audienceFilter d))
          (memberFields e).1 (trackerUpdate d.jrt roomID e).2 (memberFields e).2 := rfl

lemma trackerUpdate_nonmember {e : RawEvent} (t : JoinedRoomsTracker) (roomID : String)
    (h : e.eventType ≠ "m.room.member") : trackerUpdate t roomID e = (t, false) := by
  rcases hsk : e.stateKey with _ | sk <;> simp [trackerUpdate, hsk, h]

lemma usersInvitedToRoom_joined : ∀ (users : List String) (t : JoinedRoomsTracker)
    (room : String), (t.usersInvitedToRoom users room).joined = t.joined := by
  intro users
  induction users with
  | nil => intro t room; rfl
  | cons u rest ih => intro t room; exact ih _ room

lemma mem_usersInvitedToRoom_invited : ∀ (users : List String) (t : JoinedRoomsTracker)
    (room r v : String),
    v ∈ (t.usersInvitedToRoom users room).invited r ↔
      v ∈ t.invited r ∨ (r = room ∧ v ∈ users) := by
  intro users
  induction users with
  | nil => intro t room r v; simp [JoinedRoomsTracker.usersInvitedToRoom]
  | cons u rest ih =>
    intro t room r v
    simp only [JoinedRoomsTracker.usersInvitedToRoom]
    rw [ih]
    dsimp only
    by_cases hr : r = room
    · subst hr
      rw [if_pos rfl]
      simp only [mem_insertUser, List.mem_cons, eq_self_iff_true, true_and]
      tauto
    · rw [if_neg hr]
      simp [hr]

lemma mem_usersJoinedRoom_joined : ∀ (users : List String) (t : JoinedRoomsTracker)
    (room r v : String),
    v ∈ (t.usersJoinedRoom users room).1.joined r ↔
      v ∈ t.joined r ∨ (r = room ∧ v ∈ users) := by
  intro users
  induction users with
  | nil => intro t room r v; simp [JoinedRoomsTracker.usersJoinedRoom]
  | cons u rest ih =>
    intro t room r v
    simp only [JoinedRoomsTracker.usersJoinedRoom]
    rw [ih]
    simp only [JoinedRoomsTracker.userJoinedRoom]
    by_cases hr : r = room
    · subst hr
      rw [if_pos rfl]
      simp only [mem_insertUser, List.mem_cons, eq_self_iff_true, true_and]
      tauto
    · rw [if_neg hr]
      simp [hr]

/-! ## Claim theorems -/

/-- Claim C1 (code_bug). The spec says a missing global receiver makes
`OnInvalidateRoom` log and abort gracefully. In the source (part_000 line
278) the lookup result is fed to the single-value type assertion
`receiver.(*caches.GlobalCache)` which, on a nil interface, panics before
the `gc == nil` log-and-return branch can run: with no receiver registered
under the global sentinel the call panics instead of logging. Membership
state is indeed untouched and no per-user notification fires, but only
because the panic aborts the call before either could happen. -/
theorem onInvalidateRoom_missing_global_panics (d : Dispatcher) (roomID : String)
    (joins : List (String × EventData)) (invites leaves : List String)
    (h : d.userToReceiver DispatcherAllUsers = none) :
    onInvalidateRoom d roomID joins invites leaves
      = Except.error GoPanic.interfaceConversion := by
  simp [onInvalidateRoom, typeAssertGlobalCache, h]

/-- Claim C1 witness: the concrete dispatcher with an empty registry. -/
theorem onInvalidateRoom_missing_global_panics_witness :
    dEmpty.userToReceiver DispatcherAllUsers = none ∧
    onInvalidateRoom dEmpty "!r" [] [] [] = Except.error GoPanic.interfaceConversion :=
  ⟨rfl, onInvalidateRoom_missing_global_panics dEmpty "!r" [] [] [] rfl⟩

/-- Claim C2 counterexample. The claim says the range caps of `SliceInto`
never clamp below 0, for every sequence. For the empty sequence the cap
target `len(sequence)-1` is `-1`: range `[0, 0]` has both bounds `≥ len`,
and both are clamped to `-1`, which is below 0 (the Go code then calls
`Subslice(-1, 0)`). -/
theorem sliceInto_empty_clamps_below_zero :
    clampRange (([] : List Nat).length : Int) (0, 0) = (-1, -1) ∧
    ¬(0 ≤ (clampRange (([] : List Nat).length : Int) (0, 0)).1) ∧
    (([] : List Nat).length : Int) ≤ (0 : Int) := by
  decide

/-- Claim C2 (amended): for every range list and sequence, `SliceInto`
maps over the ranges in input order, capping each bound that reaches the
sequence length down to `length - 1` (equivalently, to the minimum of the
bound and `length - 1`) and extracting the closed-open slice
`[start, end+1)`; for a NON-EMPTY sequence the cap never produces a value
below 0. In-range slices are the expected contiguous segment, and a
sequence of length 10 with range `[5, 20]` yields indices 5..9. -/
theorem sliceInto_clamping {α : Type} (slice : List α) (r : List SliceRange)
    (sr : SliceRange) (a b : Int) (hne : slice ≠ []) (h0 : 0 ≤ a) (hab : a ≤ b)
    (hb : b < (slice.length : Int)) :
    clampRange (slice.length : Int) sr
      = (min sr.1 ((slice.length : Int) - 1), min sr.2 ((slice.length : Int) - 1)) ∧
    ((slice.length : Int) ≤ sr.1 → 0 ≤ (clampRange (slice.length : Int) sr).1) ∧
    ((slice.length : Int) ≤ sr.2 → 0 ≤ (clampRange (slice.length : Int) sr).2) ∧
    sliceInto r slice = r.map (fun sr2 =>
      subslice slice (clampRange (slice.length : Int) sr2).1
        ((clampRange (slice.length : Int) sr2).2 + 1)) ∧
    (sliceInto r slice).length = r.length ∧
    subslice slice a (b + 1) = (slice.drop a.toNat).take (b + 1 - a).toNat ∧
    sliceInto [((5 : Int), 20)] [0, 1, 2, 3, 4, 5, 6, 7, 8, 9]
      = [[(5 : Nat), 6, 7, 8, 9]] := by
  have hlen : 0 < slice.length := List.length_pos.mpr hne
  refine ⟨?_, ?_, ?_, rfl, by simp [sliceInto], ?_, by decide⟩
  · simp only [clampRange, Prod.mk.injEq]
    constructor <;> (rw [Int.min_def] <;> split <;> split <;> omega)
  · intro h
    simp only [clampRange, if_pos h]
    omega
  · intro h
    simp only [clampRange, if_pos h]
    omega
  · simp only [subslice, List.drop_take]
    congr 1
    omega

/-- Claim C2 witness: the amended theorem applied to a concrete non-empty
sequence, range and in-range bounds. -/
theorem sliceInto_clamping_witness :
    (([10, 20, 30] : List Nat) ≠ [] ∧ (0 : Int) ≤ 0 ∧ (0 : Int) ≤ 2 ∧
      (2 : Int) < (([10, 20, 30] : List Nat).length : Int)) ∧
    sliceInto [((5 : Int), 20)] [0, 1, 2, 3, 4, 5, 6, 7, 8, 9]
      = [[(5 : Nat), 6, 7, 8, 9]] :=
  ⟨by refine ⟨by decide, by decide, by decide, by decide⟩,
   (sliceInto_clamping [10, 20, 30] [((1 : Int), 5)] ((1 : Int), 5) 0 2
      (by decide) (by decide) (by decide) (by decide)).2.2.2.2.2.2⟩

/-- Claim C3 (confirmed). `Delta` treats both inputs as sets of distinct
pairs: `same` is the intersection, `removed` the pairs only in the
receiver, `added` the pairs only in the argument; as sets
`added ∪ same = next`, `removed ∪ same = r`, and `added` and `removed`
are disjoint; each output is duplicate-free. -/
theorem delta_set_semantics (r next : List SliceRange) (p : SliceRange) :
    ((p ∈ (delta r next).1 ∨ p ∈ (delta r next).2.2) ↔ p ∈ next) ∧
    ((p ∈ (delta r next).2.1 ∨ p ∈ (delta r next).2.2) ↔ p ∈ r) ∧
    ¬(p ∈ (delta r next).1 ∧ p ∈ (delta r next).2.1) ∧
    (p ∈ (delta r next).2.2 ↔ p ∈ r ∧ p ∈ next) ∧
    (p ∈ (delta r next).2.1 ↔ p ∈ r ∧ p ∉ next) ∧
    (p ∈ (delta r next).1 ↔ p ∈ next ∧ p ∉ r) ∧
    (delta r next).1.Nodup ∧ (delta r next).2.1.Nodup ∧ (delta r next).2.2.Nodup := by
  refine ⟨?_, ?_, ?_, ?_, ?_, ?_, ?_, ?_, ?_⟩
  all_goals try exact List.Nodup.filter _ (List.nodup_dedup _)
  all_goals simp only [delta, List.mem_filter, List.mem_dedup, decide_eq_true_eq]
  all_goals tauto

/-- Claim C3 witness: the set equations at a concrete pair of range
collections, read off from the theorem. -/
theorem delta_set_semantics_witness :
    ((((0 : Int), (0 : Int)) ∈ (delta [((0 : Int), 1)] [((0 : Int), 0)]).1 ∨
        ((0 : Int), (0 : Int)) ∈ (delta [((0 : Int), 1)] [((0 : Int), 0)]).2.2) ↔
      ((0 : Int), (0 : Int)) ∈ [((0 : Int), (0 : Int))]) :=
  (delta_set_semantics [((0 : Int), 1)] [((0 : Int), 0)] ((0 : Int), (0 : Int))).1

lemma onEphemeralEvent_cons {d : Dispatcher} {g : Receiver}
    (h : d.userToReceiver DispatcherAllUsers = some g) (roomID payload : String) :
    (onEphemeralEvent d roomID payload).2
      = Call.ephemeralEvent DispatcherAllUsers roomID payload ::
        ((d.jrt.joinedUsersForRoom roomID (audienceFilter d)).1.filterMap (fun userID =>
          match d.userToReceiver userID with
          | none => none
          | some _ => some (Call.ephemeralEvent userID roomID payload))) := by
  simp only [onEphemeralEvent]
  rw [h]
  rfl

lemma onReceipt_cons {d : Dispatcher} {g : Receiver}
    (h : d.userToReceiver DispatcherAllUsers = some g) (rc : Receipt) :
    (onReceipt d rc).2
      = Call.receipt DispatcherAllUsers rc ::
        ((d.jrt.joinedUsersForRoom rc.roomID (audienceFilter d)).1.filterMap (fun userID =>
          match d.userToReceiver userID with
          | none => none
          | some _ => some (Call.receipt userID rc))) := by
  simp only [onReceipt]
  rw [h]
  rfl

lemma replayEvents_global_chunks (roomID : String) (g : Receiver) :
    ∀ (state : List RawEvent) (d : Dispatcher),
      d.userToReceiver DispatcherAllUsers = some g →
      ∃ chunks : List (List Call),
        (replayEvents d roomID state).2 = chunks.flatten ∧
        ∀ c ∈ chunks, ∃ ed rest, c = Call.newEvent DispatcherAllUsers ed :: rest := by
  intro state
  induction state with
  | nil =>
    intro d _
    exact ⟨[], rfl, fun c hc => absurd hc (List.not_mem_nil c)⟩
  | cons e rest ih =>
    intro d hd
    obtain ⟨chunks, hflat, hall⟩ := ih (onNewEvent d roomID e 0).1 hd
    refine ⟨(onNewEvent d roomID e 0).2 :: chunks, ?_, ?_⟩
    · simp only [replayEvents, List.flatten_cons]
      rw [hflat]
    · intro c hc
      rcases List.mem_cons.mp hc with rfl | hc2
      · exact ⟨_, _, (onNewEvent_trace d roomID e 0).trans (notifyListeners_cons hd)⟩
      · exact hall c hc2

lemma onNewInitialRoomState_degraded (d : Dispatcher) (roomID : String)
    (state : List RawEvent) (h : 0 < (d.jrt.joined roomID).length) :
    onNewInitialRoomState d roomID state
      = ((replayEvents d roomID state).1, (replayEvents d roomID state).2, true) := by
  simp only [onNewInitialRoomState, JoinedRoomsTracker.joinedUsersForRoom, if_pos h]

lemma onNewInitialRoomState_bulk (d : Dispatcher) (roomID : String)
    (state : List RawEvent) (h : ¬0 < (d.jrt.joined roomID).length) :
    onNewInitialRoomState d roomID state
      = ({ d with jrt := bulkTracker d roomID state },
         (state.map (fun e =>
           notifyListeners { d with jrt := bulkTracker d roomID state }
             (bulkEventData d roomID state e)
             ((bulkTracker d roomID state).joinedUsersForRoom roomID (audienceFilter d)).1
             "" (d.jrt.usersJoinedRoom (joinedOfState state) roomID).2 "")).flatten,
         false) := by
  simp only [onNewInitialRoomState, JoinedRoomsTracker.joinedUsersForRoom, if_neg h]

/-- Claim C4 (confirmed). For every dispatch operation — new event, bulk
initial room state, ephemeral event, receipt — when a global receiver is
registered, the invocation trace of each dispatched signal begins with the
call to the global receiver, before any per-user receiver is invoked for
that signal (the bulk path is a concatenation of per-event traces, each of
which begins with the global call). -/
theorem global_receiver_notified_first (d : Dispatcher) (g : Receiver)
    (hg : d.userToReceiver DispatcherAllUsers = some g) :
    (∀ ed uids tu sfi mem, ∃ rest,
        notifyListeners d ed uids tu sfi mem
          = Call.newEvent DispatcherAllUsers ed :: rest) ∧
    (∀ roomID payload, ∃ rest,
        (onEphemeralEvent d roomID payload).2
          = Call.ephemeralEvent DispatcherAllUsers roomID payload :: rest) ∧
    (∀ rc, ∃ rest,
        (onReceipt d rc).2 = Call.receipt DispatcherAllUsers rc :: rest) ∧
    (∀ roomID e nid, ∃ ed rest,
        (onNewEvent d roomID e nid).2 = Call.newEvent DispatcherAllUsers ed :: rest) ∧
    (∀ roomID state, ∃ chunks : List (List Call),
        (onNewInitialRoomState d roomID state).2.1 = chunks.flatten ∧
        ∀ c ∈ chunks, ∃ ed rest, c = Call.newEvent DispatcherAllUsers ed :: rest) := by
  refine ⟨?_, ?_, ?_, ?_, ?_⟩
  · intro ed uids tu sfi mem
    exact ⟨_, notifyListeners_cons hg⟩
  · intro roomID payload
    exact ⟨_, onEphemeralEvent_cons hg roomID payload⟩
  · intro rc
    exact ⟨_, onReceipt_cons hg rc⟩
  · intro roomID e nid
    exact ⟨_, _, (onNewEvent_trace d roomID e nid).trans (notifyListeners_cons hg)⟩
  · intro roomID state
    by_cases hjc : 0 < (d.jrt.joined roomID).length
    · obtain ⟨chunks, hflat, hall⟩ := replayEvents_global_chunks roomID g state d hg
      refine ⟨chunks, ?_, hall⟩
      rw [onNewInitialRoomState_degraded d roomID state hjc]
      exact hflat
    · refine ⟨state.map (fun e =>
        notifyListeners { d with jrt := bulkTracker d roomID state }
          (bulkEventData d roomID state e)
          ((bulkTracker d roomID state).joinedUsersForRoom roomID (audienceFilter d)).1
          "" (d.jrt.usersJoinedRoom (joinedOfState state) roomID).2 ""), ?_, ?_⟩
      · rw [onNewInitialRoomState_bulk d roomID state hjc]
      · intro c hc
        obtain ⟨e, he, rfl⟩ := List.mem_map.mp hc
        exact ⟨_, _, notifyListeners_cons hg⟩

/-- Claim C4 witness: with the global sentinel registered, an ephemeral
dispatch begins with the global call. -/
theorem global_receiver_notified_first_witness :
    dGlobalOnly.userToReceiver DispatcherAllUsers = some gRecv ∧
    (∃ rest, (onEphemeralEvent dGlobalOnly "!r" "typing").2
        = Call.ephemeralEvent DispatcherAllUsers "!r" "typing" :: rest) :=
  ⟨rfl, (global_receiver_notified_first dGlobalOnly gRecv rfl).2.1 "!r" "typing"⟩

/-- Claim C7 (confirmed). `Register` installs the receiver (an existing
registration is replaced — last writer wins), returns exactly what the
`OnRegistered` hook returns, logs the already-registered warning rather
than failing, leaves every other registry slot and the tracker untouched,
and does not roll the installation back when the hook fails (the installed
registry is independent of the hook result). -/
theorem register_installs_then_hook (d : Dispatcher) (u : String) (r : Receiver) :
    ((register d u r).1.userToReceiver u = some r) ∧
    ((register d u r).2.1 = r.onRegisteredErr) ∧
    ((register d u r).2.2 = (d.userToReceiver u).isSome) ∧
    (∀ v, v ≠ u → (register d u r).1.userToReceiver v = d.userToReceiver v) ∧
    ((register d u r).1.jrt = d.jrt) := by
  refine ⟨?_, rfl, rfl, ?_, rfl⟩
  · show (if u = u then some r else d.userToReceiver u) = some r
    rw [if_pos rfl]
  · intro v hv
    show (if v = u then some r else d.userToReceiver v) = d.userToReceiver v
    rw [if_neg hv]

/-- Claim C7 witness: registering a receiver whose hook fails still
installs it, and the hook error is returned verbatim. -/
theorem register_installs_then_hook_witness :
    (register dEmpty "@u:s" failRecv).1.userToReceiver "@u:s" = some failRecv ∧
    (register dEmpty "@u:s" failRecv).2.1 = some "hook failed" ∧
    (register dEmpty "@u:s" failRecv).2.2 = false :=
  ⟨(register_installs_then_hook dEmpty "@u:s" failRecv).1,
   (register_installs_then_hook dEmpty "@u:s" failRecv).2.1,
   (register_installs_then_hook dEmpty "@u:s" failRecv).2.2.1⟩

/-- Claim C9 (confirmed). `OnEphemeralEvent` and `OnReceipt` mutate
nothing — the dispatcher (tracker included) is returned unchanged — and
the per-user audience of each is exactly the joined users of the room
filtered by the audience predicate (registered receiver, sentinel
excluded), after the global call when the global receiver is
registered. -/
theorem ephemeral_receipt_no_membership_mutation (d : Dispatcher)
    (roomID payload : String) (rc : Receipt) :
    (onEphemeralEvent d roomID payload).1 = d ∧
    (onReceipt d rc).1 = d ∧
    (onEphemeralEvent d roomID payload).2
      = (if (d.userToReceiver DispatcherAllUsers).isSome = true
          then [Call.ephemeralEvent DispatcherAllUsers roomID payload] else []) ++
        ((d.jrt.joined roomID).filter (audienceFilter d)).map
          (fun u => Call.ephemeralEvent u roomID payload) ∧
    (onReceipt d rc).2
      = (if (d.userToReceiver DispatcherAllUsers).isSome = true
          then [Call.receipt DispatcherAllUsers rc] else []) ++
        ((d.jrt.joined rc.roomID).filter (audienceFilter d)).map
          (fun u => Call.receipt u rc) := by
  have hu1 : ∀ u ∈ (d.jrt.joined roomID).filter (audienceFilter d),
      (d.userToReceiver u).isSome = true :=
    fun u hu => audienceFilter_isSome (List.mem_filter.mp hu).2
  have hu2 : ∀ u ∈ (d.jrt.joined rc.roomID).filter (audienceFilter d),
      (d.userToReceiver u).isSome = true :=
    fun u hu => audienceFilter_isSome (List.mem_filter.mp hu).2
  refine ⟨rfl, rfl, ?_, ?_⟩
  · simp only [onEphemeralEvent, JoinedRoomsTracker.joinedUsersForRoom]
    rw [filterMap_lookup_eq_map d _ _ hu1]
    cases h : d.userToReceiver DispatcherAllUsers <;> simp [h]
  · simp only [onReceipt, JoinedRoomsTracker.joinedUsersForRoom]
    rw [filterMap_lookup_eq_map d _ _ hu2]
    cases h : d.userToReceiver DispatcherAllUsers <;> simp [h]

/-- Claim C9 witness: a concrete ephemeral dispatch returns the dispatcher
unchanged. -/
theorem ephemeral_receipt_no_membership_mutation_witness :
    (onEphemeralEvent dGlobalAndUser "!r" "typing").1 = dGlobalAndUser :=
  (ephemeral_receipt_no_membership_mutation dGlobalAndUser "!r" "typing" ⟨"!r"⟩).1

lemma memberFields_nonmember {e : RawEvent} (h : e.eventType ≠ "m.room.member") :
    memberFields e = ("", "") := by
  rcases hsk : e.stateKey with _ | sk <;> simp [memberFields, hsk, h]

lemma eventDataFor_forceInitial (d : Dispatcher) (roomID : String) (e : RawEvent)
    (nid : Int) : (eventDataFor d roomID e nid).forceInitial = false := by
  unfold eventDataFor newEventData
  dsimp only
  split <;> rfl

/-- Claim C5 (confirmed). The membership-target fallback of
`notifyListeners` delivers the event to the target user when the audience
loop did not notify them, except that it is suppressed when the membership
value is exactly "invite"; concretely, dispatching an invite-membership
event for a user with no prior membership never invokes that user, yet
raises the room invited-user count to 1. -/
theorem invite_fallback_suppressed
    (d : Dispatcher) (U R : String) (ru : Receiver) (nid : Int)
    (ed : EventData) (uids : List String) (tu mem : String) (sfi : Bool) (l : Receiver)
    (hreg : d.userToReceiver U = some ru) (hU : U ≠ DispatcherAllUsers)
    (hnj : U ∉ d.jrt.joined R) (hni : d.jrt.invited R = [])
    (htu : tu ≠ "") (hnt : notifiedTarget d uids tu = false)
    (hmem : mem ≠ "invite") (hl : d.userToReceiver tu = some l) :
    (∃ pre, notifyListeners d ed uids tu sfi mem
        = pre ++ [Call.newEvent tu (if sfi then { ed with forceInitial := true } else ed)]) ∧
    (∀ dta, Call.newEvent U dta ∉
        (onNewEvent d R ⟨"m.room.member", some U, "invite"⟩ nid).2) ∧
    (onNewEvent d R ⟨"m.room.member", some U, "invite"⟩ nid).1.jrt.numInvitedUsersForRoom R
      = 1 := by
  have hupd : trackerUpdate d.jrt R ⟨"m.room.member", some U, "invite"⟩
      = (d.jrt.usersInvitedToRoom [U] R, false) := by
    simp [trackerUpdate]
  have hmf : memberFields ⟨"m.room.member", some U, "invite"⟩ = (U, "invite") := by
    simp [memberFields]
  have hjoined : (d.jrt.usersInvitedToRoom [U] R).joined = d.jrt.joined :=
    usersInvitedToRoom_joined [U] d.jrt R
  refine ⟨?_, ?_, ?_⟩
  · refine ⟨globalNewEventCalls d ed ++ perUserNewEventCalls d ed uids tu sfi, ?_⟩
    unfold notifyListeners
    rw [hnt]
    congr 1
    unfold fallbackCalls
    rw [if_pos ⟨htu, rfl⟩, if_pos hmem, hl]
  · intro dta hmem2
    rw [onNewEvent_trace] at hmem2
    simp only [hupd, hmf, JoinedRoomsTracker.joinedUsersForRoom] at hmem2
    rw [mem_notifyListeners] at hmem2
    rcases hmem2 with hg | hp | hf
    · rw [mem_globalNewEventCalls] at hg
      exact hU (Call.newEvent.injEq .. |>.mp hg.2).1
    · rw [mem_perUserNewEventCalls] at hp
      obtain ⟨u, hu, _, hc⟩ := hp
      obtain ⟨rfl, -⟩ := Call.newEvent.injEq .. |>.mp hc
      rw [hjoined] at hu
      exact hnj (List.mem_filter.mp hu).1
    · rw [mem_fallbackCalls] at hf
      exact hf.2.2.1 rfl
  · rw [onNewEvent_jrt]
    simp only [hupd]
    show ((d.jrt.usersInvitedToRoom [U] R).invited R).length = 1
    simp [JoinedRoomsTracker.usersInvitedToRoom, insertUser, hni]

/-- Claim C5 witness: inviting a fresh user in a concrete dispatcher
raises the invited count of the room to exactly 1. -/
theorem invite_fallback_suppressed_witness :
    (onNewEvent dGlobalAndUser "!r"
      ⟨"m.room.member", some "@u:s", "invite"⟩ 1).1.jrt.numInvitedUsersForRoom "!r" = 1 :=
  (invite_fallback_suppressed dGlobalAndUser "@u:s" "!r" uRecv 1
    (newEventData ⟨"m.room.message", none, ""⟩ "!r" 1) [] "@u:s" "join" false uRecv
    (by decide) (by decide) (by decide) rfl (by decide) rfl (by decide) (by decide)).2.2

/-- Claim C6 (confirmed). Each audience member receives a per-recipient
copy, and with the dispatched data starting with `ForceInitial = false`, a
delivered copy carries `ForceInitial = true` only if its recipient is the
membership target of a bootstrap-forcing change; in the concrete two-step
scenario, a first-time join delivers `ForceInitial = true` to the joining
user and a later unrelated event delivers `ForceInitial = false`. -/
theorem forceInitial_only_target_copy
    (d : Dispatcher) (U R : String) (ru : Receiver) (nid nid2 : Int) (e2 : RawEvent)
    (hreg : d.userToReceiver U = some ru) (hU : U ≠ DispatcherAllUsers)
    (hnj : U ∉ d.jrt.joined R) (he2 : e2.eventType ≠ "m.room.member") :
    (∀ ed uids tu sfi mem u dta, ed.forceInitial = false →
        Call.newEvent u dta ∈ notifyListeners d ed uids tu sfi mem →
        dta.forceInitial = true → u = tu ∧ sfi = true) ∧
    (∃ dta, Call.newEvent U dta ∈
        (onNewEvent d R ⟨"m.room.member", some U, "join"⟩ nid).2 ∧
      dta.forceInitial = true) ∧
    (∀ dta, Call.newEvent U dta ∈
        (onNewEvent (onNewEvent d R ⟨"m.room.member", some U, "join"⟩ nid).1 R e2 nid2).2 →
      dta.forceInitial = false) ∧
    (∃ dta, Call.newEvent U dta ∈
        (onNewEvent (onNewEvent d R ⟨"m.room.member", some U, "join"⟩ nid).1 R e2 nid2).2 ∧
      dta.forceInitial = false) := by
  have hupd : trackerUpdate d.jrt R ⟨"m.room.member", some U, "join"⟩
      = d.jrt.userJoinedRoom U R := by
    simp [trackerUpdate]
  have hmf : memberFields ⟨"m.room.member", some U, "join"⟩ = (U, "join") := by
    simp [memberFields]
  have hsfi : (d.jrt.userJoinedRoom U R).2 = true := by
    simp [JoinedRoomsTracker.userJoinedRoom, hnj]
  have hUmem : U ∈ (d.jrt.userJoinedRoom U R).1.joined R := by
    show U ∈ if R = R then insertUser U (d.jrt.joined R) else d.jrt.joined R
    rw [if_pos rfl]
    exact mem_insertUser.mpr (Or.inr rfl)
  have hUfilter : audienceFilter d U = true :=
    audienceFilter_true hU (by rw [hreg]; rfl)
  have hd1reg : ∀ (jrt : JoinedRoomsTracker),
      (Dispatcher.mk jrt d.userToReceiver).userToReceiver U = some ru := fun _ => hreg
  refine ⟨?_, ?_, ?_, ?_⟩
  · intro ed uids tu sfi mem u dta hed hmm hfi
    rw [mem_notifyListeners] at hmm
    rcases hmm with hg | hp | hf
    · rw [mem_globalNewEventCalls] at hg
      obtain ⟨-, rfl⟩ := Call.newEvent.injEq .. |>.mp hg.2
      rw [hed] at hfi
      cases hfi
    · rw [mem_perUserNewEventCalls] at hp
      obtain ⟨v, _, _, hc⟩ := hp
      obtain ⟨rfl, rfl⟩ := Call.newEvent.injEq .. |>.mp hc
      rcases copyForUser_forceInitial hfi with hbad | ⟨rfl, rfl⟩
      · rw [hed] at hbad
        cases hbad
      · exact ⟨rfl, rfl⟩
    · rw [mem_fallbackCalls] at hf
      obtain ⟨-, -, -, -, hc⟩ := hf
      obtain ⟨rfl, rfl⟩ := Call.newEvent.injEq .. |>.mp hc
      rcases hsfi2 : sfi with - | -
      · rw [hsfi2] at hfi
        simp only [if_neg Bool.false_ne_true] at hfi
        rw [hed] at hfi
        cases hfi
      · exact ⟨rfl, rfl⟩
  · refine ⟨{ eventDataFor d R ⟨"m.room.member", some U, "join"⟩ nid with
        forceInitial := true }, ?_, rfl⟩
    rw [onNewEvent_trace, mem_notifyListeners]
    refine Or.inr (Or.inl ?_)
    rw [mem_perUserNewEventCalls]
    refine ⟨U, ?_, ?_, ?_⟩
    · simp only [hupd, JoinedRoomsTracker.joinedUsersForRoom]
      exact List.mem_filter.mpr ⟨hUmem, hUfilter⟩
    · show (d.userToReceiver U).isSome = true
      rw [hreg]; rfl
    · simp only [hupd, hmf, hsfi]
      rw [copyForUser_of_target]
  · intro dta hmm
    rw [onNewEvent_trace] at hmm
    rw [trackerUpdate_nonmember _ _ he2, memberFields_nonmember he2] at hmm
    rw [mem_notifyListeners] at hmm
    rcases hmm with hg | hp | hf
    · rw [mem_globalNewEventCalls] at hg
      obtain ⟨-, rfl⟩ := Call.newEvent.injEq .. |>.mp hg.2
      exact eventDataFor_forceInitial ..
    · rw [mem_perUserNewEventCalls] at hp
      obtain ⟨v, _, _, hc⟩ := hp
      obtain ⟨-, rfl⟩ := Call.newEvent.injEq .. |>.mp hc
      rw [copyForUser_false]
      exact eventDataFor_forceInitial ..
    · rw [mem_fallbackCalls] at hf
      exact absurd rfl hf.1
  · refine ⟨eventDataFor (onNewEvent d R ⟨"m.room.member", some U, "join"⟩ nid).1 R e2 nid2,
      ?_, eventDataFor_forceInitial ..⟩
    rw [onNewEvent_trace, mem_notifyListeners]
    refine Or.inr (Or.inl ?_)
    rw [mem_perUserNewEventCalls]
    refine ⟨U, ?_, ?_, ?_⟩
    · rw [trackerUpdate_nonmember _ _ he2]
      simp only [JoinedRoomsTracker.joinedUsersForRoom]
      refine List.mem_filter.mpr ⟨?_, hUfilter⟩
      rw [onNewEvent_jrt]
      simp only [hupd]
      exact hUmem
    · show (d.userToReceiver U).isSome = true
      rw [hreg]; rfl
    · rw [memberFields_nonmember he2, trackerUpdate_nonmember _ _ he2]
      rw [copyForUser_false]

/-- Claim C6 witness: the first-time join in a concrete dispatcher
delivers the joining user a copy with `ForceInitial = true`. -/
theorem forceInitial_only_target_copy_witness :
    ∃ dta, Call.newEvent "@u:s" dta ∈
        (onNewEvent dGlobalAndUser "!r" ⟨"m.room.member", some "@u:s", "join"⟩ 1).2 ∧
      dta.forceInitial = true :=
  (forceInitial_only_target_copy dGlobalAndUser "@u:s" "!r" uRecv 1 2
    ⟨"m.room.message", none, ""⟩ rfl (by decide) (by decide) (by decide)).2.1

/-- Claim C8 (confirmed). When the room already has joined users in the
tracker, `OnNewInitialRoomState` degrades to replaying each state event
through the incremental `OnNewEvent` path (with the diagnostic flag set);
otherwise it bulk-updates the tracker from the membership state events
(so the joined set becomes exactly the joined users of the state block)
and every dispatched `EventData` carries the room invite and join counts
computed from the updated tracker. Every path is a total function — the
call never crashes. -/
theorem initial_state_paths (d : Dispatcher) (roomID : String) (state : List RawEvent) :
    (0 < (d.jrt.joined roomID).length →
      onNewInitialRoomState d roomID state
        = ((replayEvents d roomID state).1, (replayEvents d roomID state).2, true)) ∧
    ((d.jrt.joined roomID).length = 0 →
      ((onNewInitialRoomState d roomID state).2.2 = false ∧
       (onNewInitialRoomState d roomID state).1.jrt = bulkTracker d roomID state ∧
       (∀ u, u ∈ (onNewInitialRoomState d roomID state).1.jrt.joined roomID ↔
          u ∈ joinedOfState state) ∧
       (∀ u dta, Call.newEvent u dta ∈ (onNewInitialRoomState d roomID state).2.1 →
          dta.inviteCount = (bulkTracker d roomID state).numInvitedUsersForRoom roomID ∧
          dta.joinCount = ((bulkTracker d roomID state).joined roomID).length))) := by
  constructor
  · intro h
    exact onNewInitialRoomState_degraded d roomID state h
  · intro h
    have hlt : ¬0 < (d.jrt.joined roomID).length := by omega
    have hempty : d.jrt.joined roomID = [] := List.length_eq_zero.mp h
    rw [onNewInitialRoomState_bulk d roomID state hlt]
    refine ⟨rfl, rfl, ?_, ?_⟩
    · intro u
      show u ∈ (bulkTracker d roomID state).joined roomID ↔ u ∈ joinedOfState state
      unfold bulkTracker
      rw [usersInvitedToRoom_joined, mem_usersJoinedRoom_joined, hempty]
      simp
    · intro u dta hm
      rw [List.mem_flatten] at hm
      obtain ⟨chunk, hchunk, hcm⟩ := hm
      obtain ⟨e, -, rfl⟩ := List.mem_map.mp hchunk
      rw [mem_notifyListeners] at hcm
      rcases hcm with hg | hp | hf
      · rw [mem_globalNewEventCalls] at hg
        obtain ⟨-, rfl⟩ := Call.newEvent.injEq .. |>.mp hg.2
        exact ⟨rfl, rfl⟩
      · rw [mem_perUserNewEventCalls] at hp
        obtain ⟨v, -, -, hc⟩ := hp
        obtain ⟨-, rfl⟩ := Call.newEvent.injEq .. |>.mp hc
        exact (copyForUser_fields ..)
      · rw [mem_fallbackCalls] at hf
        obtain ⟨-, -, -, -, hc⟩ := hf
        obtain ⟨-, rfl⟩ := Call.newEvent.injEq .. |>.mp hc
        rcases hsfi : (d.jrt.usersJoinedRoom (joinedOfState state) roomID).2 with - | - <;>
          exact ⟨rfl, rfl⟩

/-- Claim C8 witness: a concrete degraded call (room already has a joined
user) replays through the incremental path with the diagnostic set, and a
concrete clean call takes the bulk path without the diagnostic. -/
theorem initial_state_paths_witness :
    (0 < (dJoinedOne.jrt.joined "!r").length ∧
      onNewInitialRoomState dJoinedOne "!r" [⟨"m.room.message", none, ""⟩]
        = ((replayEvents dJoinedOne "!r" [⟨"m.room.message", none, ""⟩]).1,
           (replayEvents dJoinedOne "!r" [⟨"m.room.message", none, ""⟩]).2, true)) ∧
    (onNewInitialRoomState dEmpty "!r" [⟨"m.room.message", none, ""⟩]).2.2 = false :=
  ⟨⟨by decide,
    (initial_state_paths dJoinedOne "!r" [⟨"m.room.message", none, ""⟩]).1 (by decide)⟩,
   ((initial_state_paths dEmpty "!r" [⟨"m.room.message", none, ""⟩]).2 rfl).1⟩

lemma globalCallCount_append (a b : List Call) :
    globalCallCount (a ++ b) = globalCallCount a + globalCallCount b :=
  List.countP_append _ a b

lemma globalCallCount_eq_zero {t : List Call}
    (h : ∀ c ∈ t, c.user ≠ DispatcherAllUsers) : globalCallCount t = 0 := by
  unfold globalCallCount
  rw [List.countP_eq_zero]
  intro c hc
  simp [h c hc]

lemma globalCallCount_le_length (t : List Call) : globalCallCount t ≤ t.length :=
  List.countP_le_length _

lemma globalCallCount_notifyListeners_le_one {d : Dispatcher} {ed : EventData}
    {uids : List String} {tu mem : String} {sfi : Bool}
    (huids : ∀ u ∈ uids, u ≠ DispatcherAllUsers) (htu : tu ≠ DispatcherAllUsers) :
    globalCallCount (notifyListeners d ed uids tu sfi mem) ≤ 1 := by
  unfold notifyListeners
  rw [globalCallCount_append, globalCallCount_append]
  have hper : globalCallCount (perUserNewEventCalls d ed uids tu sfi) = 0 := by
    refine globalCallCount_eq_zero ?_
    intro c hc
    rw [mem_perUserNewEventCalls] at hc
    obtain ⟨u, hu, -, rfl⟩ := hc
    exact huids u hu
  have hfb : globalCallCount
      (fallbackCalls d ed tu sfi mem (notifiedTarget d uids tu)) = 0 := by
    refine globalCallCount_eq_zero ?_
    intro c hc
    rw [mem_fallbackCalls] at hc
    obtain ⟨-, -, -, -, rfl⟩ := hc
    exact htu
  have hg : globalCallCount (globalNewEventCalls d ed) ≤ 1 := by
    refine le_trans (globalCallCount_le_length _) ?_
    unfold globalNewEventCalls
    cases d.userToReceiver DispatcherAllUsers <;> simp
  omega

lemma memberFields_fst_ne {e : RawEvent}
    (hsk : e.stateKey ≠ some DispatcherAllUsers) :
    (memberFields e).1 ≠ DispatcherAllUsers := by
  rcases h : e.stateKey with - | sk
  · simp only [memberFields, h]
    decide
  · simp only [memberFields, h]
    split
    · intro hc
      refine hsk ?_
      rw [h]
      exact congrArg some hc
    · decide

/-- Claim C10 counterexample. The claim says the global receiver is
invoked at most once per dispatched signal and never additionally as a
per-user recipient. But when a membership event carries the sentinel "-"
as its state key, the membership-target fallback of `notifyListeners`
delivers the event to the receiver registered under "-" a second time,
after the global call: the trace of this `OnNewEvent` holds two calls to
the global slot. -/
theorem sentinel_double_delivery :
    globalCallCount (onNewEvent dGlobalOnly "!r"
      ⟨"m.room.member", some DispatcherAllUsers, "join"⟩ 1).2 = 2 := by
  decide

/-- Claim C10 (amended): the audience filter rejects the sentinel in all
four audience computations, so the sentinel is never in the per-user
audience; the traces of `OnEphemeralEvent` and `OnReceipt` reach the
global slot at most once; and an event-dispatch trace reaches the global
slot at most once provided the target user of the signal is not the
sentinel itself (for `OnNewEvent`, whenever the state key is not the
sentinel) — the membership-target fallback can otherwise deliver to the
global slot a second time. -/
theorem sentinel_excluded_from_audience
    (d : Dispatcher) (roomID payload : String) (rc : Receipt) (ed : EventData)
    (uids : List String) (tu mem : String) (sfi : Bool) (e : RawEvent) (nid : Int)
    (huids : DispatcherAllUsers ∉ uids) (htu : tu ≠ DispatcherAllUsers)
    (hsk : e.stateKey ≠ some DispatcherAllUsers) :
    DispatcherAllUsers ∉ (d.jrt.joinedUsersForRoom roomID (audienceFilter d)).1 ∧
    globalCallCount (notifyListeners d ed uids tu sfi mem) ≤ 1 ∧
    globalCallCount (onEphemeralEvent d roomID payload).2 ≤ 1 ∧
    globalCallCount (onReceipt d rc).2 ≤ 1 ∧
    globalCallCount (onNewEvent d roomID e nid).2 ≤ 1 := by
  have haud : ∀ (t : JoinedRoomsTracker) (room : String),
      ∀ u ∈ (t.joined room).filter (audienceFilter d), u ≠ DispatcherAllUsers :=
    fun t room u hu => audienceFilter_ne_sentinel (List.mem_filter.mp hu).2
  refine ⟨?_, ?_, ?_, ?_, ?_⟩
  · intro hmem
    exact haud d.jrt roomID DispatcherAllUsers hmem rfl
  · exact globalCallCount_notifyListeners_le_one
      (fun u hu hueq => huids (hueq ▸ hu)) htu
  · simp only [onEphemeralEvent, JoinedRoomsTracker.joinedUsersForRoom]
    rw [globalCallCount_append]
    have hu : globalCallCount (((d.jrt.joined roomID).filter
        (audienceFilter d)).filterMap (fun userID =>
          match d.userToReceiver userID with
          | none => none
          | some _ => some (Call.ephemeralEvent userID roomID payload))) = 0 := by
      refine globalCallCount_eq_zero ?_
      intro c hc
      obtain ⟨u, hu2, hc2⟩ := List.mem_filterMap.mp hc
      cases h2 : d.userToReceiver u <;> rw [h2] at hc2
      · cases hc2
      · obtain rfl := (Option.some.inj hc2).symm
        exact haud d.jrt roomID u hu2
    have hg : globalCallCount (match d.userToReceiver DispatcherAllUsers with
        | some _ => [Call.ephemeralEvent DispatcherAllUsers roomID payload]
        | none => []) ≤ 1 := by
      refine le_trans (globalCallCount_le_length _) ?_
      cases d.userToReceiver DispatcherAllUsers <;> simp
    omega
  · simp only [onReceipt, JoinedRoomsTracker.joinedUsersForRoom]
    rw [globalCallCount_append]
    have hu : globalCallCount (((d.jrt.joined rc.roomID).filter
        (audienceFilter d)).filterMap (fun userID =>
          match d.userToReceiver userID with
          | none => none
          | some _ => some (Call.receipt userID rc))) = 0 := by
      refine globalCallCount_eq_zero ?_
      intro c hc
      obtain ⟨u, hu2, hc2⟩ := List.mem_filterMap.mp hc
      cases h2 : d.userToReceiver u <;> rw [h2] at hc2
      · cases hc2
      · obtain rfl := (Option.some.inj hc2).symm
        exact haud d.jrt rc.roomID u hu2
    have hg : globalCallCount (match d.userToReceiver DispatcherAllUsers with
        | some _ => [Call.receipt DispatcherAllUsers rc]
        | none => []) ≤ 1 := by
      refine le_trans (globalCallCount_le_length _) ?_
      cases d.userToReceiver DispatcherAllUsers <;> simp
    omega
  · rw [onNewEvent_trace]
    exact globalCallCount_notifyListeners_le_one
      (haud (trackerUpdate d.jrt roomID e).1 roomID) (memberFields_fst_ne hsk)

/-- Claim C10 witness: the amended bound at a concrete dispatcher with
the global sentinel registered. -/
theorem sentinel_excluded_from_audience_witness :
    globalCallCount (onEphemeralEvent dGlobalOnly "!r" "typing").2 ≤ 1 :=
  (sentinel_excluded_from_audience dGlobalOnly "!r" "typing" ⟨"!r"⟩
    (newEventData ⟨"m.room.message", none, ""⟩ "!r" 1) [] "@t:s" "join" false
    ⟨"m.room.message", none, ""⟩ 1 (by decide) (by decide) (by decide)).2.2.1

end SlidingSync
